import Mathlib

/-!
Verification of the fastapi-funasr streaming voice session core.

This file is a shallow embedding of the per-session voice-activity
components of the repository:

- `StreamingVADService._resolve_vad_segments` and
  `StreamingVADService._merge_segments` (src/services/vad/streaming.py),
- `SlidingAudioBuffer` (src/services/vad/audio_buffer.py),
- `VADSession` (src/services/vad/session.py),
- `StateMachine` (src/services/state_machine.py).

Python wall-clock reads (`_now_ms`) are modelled by passing the current
time as an explicit argument; callback invocations are modelled as
emitted event lists; `raise ValueError` before any mutation is modelled
by returning the unchanged state together with an error flag.
Numpy arrays are modelled as a dtype tag plus a list of samples.
-/

/-- Numpy dtype tags relevant to the audio paths of the repository. -/
inductive DType where
  | float32
  | int16
  | float64
  | int32
  deriving DecidableEq, Repr

/-- A numpy array as it flows through the audio paths: a dtype tag and
the sample values (sample magnitudes are irrelevant to the claims, so
samples are integers). -/
structure NDArray where
  dtype : DType
  data : List Int
  deriving DecidableEq, Repr

/-- The session-level VAD state enum of src/common/states.py. -/
inductive VADState where
  | IDLE
  | SPEAKING
  | VOICE_END
  deriving DecidableEq, Repr

namespace StreamingVAD

/-- One step of `StreamingVADService._resolve_vad_segments`: how a single
raw boundary pair is resolved into an optional closed segment
(streaming.py lines 75-95). -/
def resolveOne (totalDurationMs : Int) (seg : List Int) : Option (Int × Int) :=
  match seg with
  | [start, stop] =>
    if start ≠ -1 ∧ stop ≠ -1 then
      if start < stop then some (start, stop) else none
    else if start ≠ -1 ∧ stop = -1 then
      if start < totalDurationMs then some (start, totalDurationMs) else none
    else if start = -1 ∧ stop ≠ -1 then
      if 0 < stop then some (0, stop) else none
    else none
  | _ => none

/-- `StreamingVADService._resolve_vad_segments`: resolve every raw pair in
arrival order, dropping items of the wrong arity and the invalid cases. -/
def resolve_vad_segments (segments : List (List Int)) (totalDurationMs : Int) :
    List (Int × Int) :=
  segments.filterMap (resolveOne totalDurationMs)

/-- The merge loop of `StreamingVADService._merge_segments`: `last` is the
mutable `merged[-1]` of the python code, the remaining sorted segments are
folded into it (streaming.py lines 54-62). -/
def mergeLoop (mergeGapMs : Int) (last : Int × Int) :
    List (Int × Int) → List (Int × Int)
  | [] => [last]
  | curr :: rest =>
    if curr.1 ≤ last.2 + mergeGapMs then
      mergeLoop mergeGapMs (last.1, max last.2 curr.2) rest
    else
      last :: mergeLoop mergeGapMs curr rest

/-- Stable insertion by start key: the incoming pair is placed after every
already-placed pair whose start is ≤ its own, matching the stability of
python `sorted(key=lambda x: x[0])`. -/
def insertByStart (p : Int × Int) : List (Int × Int) → List (Int × Int)
  | [] => [p]
  | q :: rest => if q.1 ≤ p.1 then q :: insertByStart p rest else p :: q :: rest

/-- Stable sort by start key, processing pairs in their original order. -/
def sortByStart (l : List (Int × Int)) : List (Int × Int) :=
  l.foldl (fun acc p => insertByStart p acc) []

theorem mem_insertByStart (a p : Int × Int) (l : List (Int × Int)) :
    a ∈ insertByStart p l ↔ a = p ∨ a ∈ l := by
  induction l with
  | nil => simp [insertByStart]
  | cons q rest ih =>
    simp only [insertByStart]
    split <;> simp [ih] <;> tauto

theorem mem_sortByStart_aux (a : Int × Int) (l acc : List (Int × Int)) :
    a ∈ l.foldl (fun acc p => insertByStart p acc) acc ↔ a ∈ acc ∨ a ∈ l := by
  induction l generalizing acc with
  | nil => simp
  | cons p rest ih =>
    simp only [List.foldl_cons, ih, mem_insertByStart]
    constructor <;> intro h <;> rcases h with h | h <;> simp_all <;> tauto

theorem mem_sortByStart (a : Int × Int) (l : List (Int × Int)) :
    a ∈ sortByStart l ↔ a ∈ l := by
  unfold sortByStart
  rw [mem_sortByStart_aux]
  simp

/-- `StreamingVADService._merge_segments`: keep the pairs with
`start < end`, sort them by start (python `sorted` is a stable sort by
key), then run the merge loop. -/
def merge_segments (mergeGapMs : Int) (segments : List (Int × Int)) :
    List (Int × Int) :=
  match sortByStart (segments.filter (fun s => decide (s.1 < s.2))) with
  | [] => []
  | h :: t => mergeLoop mergeGapMs h t

theorem resolveOne_lt (totalDurationMs : Int) (seg : List Int) (p : Int × Int)
    (h : resolveOne totalDurationMs seg = some p) : p.1 < p.2 := by
  unfold resolveOne at h
  rcases seg with _ | ⟨a, _ | ⟨b, _ | ⟨c, l⟩⟩⟩ <;> simp at h
  split at h <;> [skip; split at h] <;> [skip; skip; split at h]
  · split at h
    · cases h; simpa using by omega
    · cases h
  · split at h
    · rename_i hc _ _
      cases h; simpa using by omega
    · cases h
  · split at h
    · cases h; simpa using by omega
    · cases h
  · cases h

theorem resolve_all_lt (segments : List (List Int)) (totalDurationMs : Int)
    (p : Int × Int) (hp : p ∈ resolve_vad_segments segments totalDurationMs) :
    p.1 < p.2 := by
  unfold resolve_vad_segments at hp
  rcases List.mem_filterMap.1 hp with ⟨seg, _, hres⟩
  exact resolveOne_lt totalDurationMs seg p hres

theorem mergeLoop_all_lt (mergeGapMs : Int) (last : Int × Int)
    (l : List (Int × Int)) (hlast : last.1 < last.2)
    (hl : ∀ p ∈ l, p.1 < p.2) :
    ∀ p ∈ mergeLoop mergeGapMs last l, p.1 < p.2 := by
  induction l generalizing last with
  | nil =>
    intro p hp
    simp only [mergeLoop, List.mem_singleton] at hp
    exact hp ▸ hlast
  | cons curr rest ih =>
    intro p hp
    simp only [mergeLoop] at hp
    split at hp
    · refine ih (last.1, max last.2 curr.2) ?_ (fun q hq => hl q (by simp [hq])) p hp
      exact lt_of_lt_of_le hlast (le_max_left _ _)
    · rcases List.mem_cons.1 hp with h | h
      · exact h ▸ hlast
      · exact ih curr (hl curr (by simp)) (fun q hq => hl q (by simp [hq])) p h

theorem merge_all_lt (mergeGapMs : Int) (segments : List (Int × Int))
    (hseg : ∀ p ∈ segments, p.1 < p.2) :
    ∀ p ∈ merge_segments mergeGapMs segments, p.1 < p.2 := by
  intro p hp
  unfold merge_segments at hp
  have hv : ∀ q ∈ sortByStart (segments.filter (fun s => decide (s.1 < s.2))),
      q.1 < q.2 := by
    intro q hq
    exact hseg q (List.mem_of_mem_filter ((mem_sortByStart q _).1 hq))
  rcases hms : sortByStart (segments.filter (fun s => decide (s.1 < s.2)))
    with _ | ⟨h, t⟩
  · rw [hms] at hp; simp at hp
  · rw [hms] at hp
    exact mergeLoop_all_lt mergeGapMs h t (hv h (by rw [hms]; simp))
      (fun q hq => hv q (by rw [hms]; simp [hq])) p hp

end StreamingVAD

/-- C5: every interval emitted by open-boundary resolution followed by
merge satisfies `start_ms < end_ms`; no output segment has
`start_ms ≥ end_ms` (for every raw batch, total duration and merge gap). -/
theorem C5_normalizer_emits_ordered_intervals
    (mergeGapMs totalDurationMs : Int) (batch : List (List Int))
    (p : Int × Int)
    (hp : p ∈ StreamingVAD.merge_segments mergeGapMs
      (StreamingVAD.resolve_vad_segments batch totalDurationMs)) :
    p.1 < p.2 :=
  StreamingVAD.merge_all_lt mergeGapMs _
    (fun q hq => StreamingVAD.resolve_all_lt batch totalDurationMs q hq) p hp

/-- Witness for C5 at a concrete batch: the batch
`[[200, -1], [-1, 500], [700, 900]]` with total duration 1000 and merge
gap 50 yields a member segment, and the theorem applies to it. -/
theorem C5_normalizer_emits_ordered_intervals_witness :
    (0, 1000) ∈ StreamingVAD.merge_segments 50
      (StreamingVAD.resolve_vad_segments [[200, -1], [-1, 500], [700, 900]] 1000) ∧
    (0 : Int) < 1000 := by
  refine ⟨by decide, ?_⟩
  exact C5_normalizer_emits_ordered_intervals 50 1000
    [[200, -1], [-1, 500], [700, 900]] (0, 1000) (by decide)

namespace Session

/-- Events fired through the VADSession callbacks (session.py): a callback
invocation is modelled as an emitted event. -/
inductive Event where
  | voiceStart
  | voiceActive (chunk : NDArray) (elapsedMs : Int)
  | voiceEnd (fullAudio : List Int) (startMs endMs : Int)
  | vadInterrupt
  deriving DecidableEq, Repr

/-- The mutable fields of `VADSession` (session.py lines 18-29). -/
structure State where
  state : VADState
  audioBuffer : List NDArray
  totalSamples : Nat
  speechStartTimeMs : Option Int
  pendingSegments : List (List Int)
  deriving DecidableEq, Repr

/-- The freshly constructed `VADSession`. -/
def initState : State :=
  { state := VADState.IDLE
    audioBuffer := []
    totalSamples := 0
    speechStartTimeMs := none
    pendingSegments := [] }

/-- `VADSession.get_total_duration_ms`: `int(total_samples * 1000 / 16000)`
(sample_rate is fixed to 16000 in the constructor). -/
def get_total_duration_ms (s : State) : Int :=
  ((s.totalSamples * 1000) / 16000 : Nat)

/-- `VADSession.add_audio_chunk`: the dtype check raises before any field
is touched, so the error case returns the state unchanged together with an
error flag; otherwise append the chunk and bump the sample counter. -/
def add_audio_chunk (chunk : NDArray) (s : State) : State × Bool :=
  if chunk.dtype ≠ DType.float32 ∧ chunk.dtype ≠ DType.int16 then
    (s, true)
  else
    ({ s with audioBuffer := s.audioBuffer ++ [chunk]
              totalSamples := s.totalSamples + chunk.data.length }, false)

/-- The reverse search of session.py lines 67-74: walk the pending list
from its most recent entry and pop the first open `[p_start, -1]` found,
returning the popped start and the remaining list. -/
def popMostRecentOpen : List (List Int) → Option (Int × List (List Int))
  | [] => none
  | seg :: rest =>
    match popMostRecentOpen rest with
    | some (st, rest2) => some (st, seg :: rest2)
    | none =>
      match seg with
      | [pStart, pEnd] =>
        if pStart ≠ -1 ∧ pEnd = -1 then some (pStart, rest) else none
      | _ => none

/-- The audio snapshot taken by `VADSession._handle_complete_speech`:
`np.concatenate(self.audio_buffer)` (empty array for an empty buffer). -/
def drainAudio (s : State) : List Int :=
  (s.audioBuffer.map NDArray.data).flatten

/-- One iteration of the `for seg in all_segments` loop of
`VADSession.update_vad_result` (session.py lines 45-79), including the
inlined bodies of `_on_voice_start` and `_handle_complete_speech` followed
by `_reset_buffer`. -/
def step (currentTimeMs : Int) (s : State) (seg : List Int) :
    State × List Event :=
  match seg with
  | [start, stop] =>
    if start ≠ -1 ∧ stop = -1 then
      if start < 100 then (s, [])
      else
        let res :=
          if s.state = VADState.IDLE then
            ({ s with state := VADState.SPEAKING
                      speechStartTimeMs := some start }, [Event.voiceStart])
          else (s, [])
        ({ res.1 with pendingSegments := res.1.pendingSegments ++ [[start, -1]] },
          res.2)
    else if stop ≠ -1 then
      let resolved :=
        if start = -1 then popMostRecentOpen s.pendingSegments
        else some (start, s.pendingSegments)
      match resolved with
      | none => (s, [])
      | some (actualStart, pending2) =>
        let s1 := { s with pendingSegments := pending2 }
        if actualStart ≥ stop ∨ actualStart < 100 then (s1, [])
        else if s1.state = VADState.SPEAKING ∨ s1.state = VADState.IDLE then
          ({ s1 with state := VADState.IDLE
                     audioBuffer := []
                     totalSamples := 0
                     speechStartTimeMs := none },
            [Event.voiceEnd (drainAudio s1) actualStart stop])
        else (s1, [])
    else (s, [])
  | _ => (s, [])

/-- The `for seg in all_segments` loop of `VADSession.update_vad_result`:
thread the state through `step` in arrival order, concatenating the
emitted events. -/
def runSegments (currentTimeMs : Int) (s : State) :
    List (List Int) → State × List Event
  | [] => (s, [])
  | seg :: rest =>
    let r1 := step currentTimeMs s seg
    let r2 := runSegments currentTimeMs r1.1 rest
    (r2.1, r1.2 ++ r2.2)

/-- `VADSession.update_vad_result`: prepend the retained pending segments
to the new batch, clear the retained list, run the loop in arrival order,
then fire the streaming `on_voice_active` callback with the most recent
buffered chunk when the session ended the call in SPEAKING with a
non-empty buffer. -/
def update_vad_result (vadSegments : List (List Int)) (s : State) :
    State × List Event :=
  let currentTimeMs := get_total_duration_ms s
  let allSegments := s.pendingSegments ++ vadSegments
  let s0 := { s with pendingSegments := [] }
  let r := runSegments currentTimeMs s0 allSegments
  if r.1.state = VADState.SPEAKING ∧ r.1.audioBuffer ≠ [] then
    match r.1.audioBuffer.getLast? with
    | some chunk => (r.1, r.2 ++ [Event.voiceActive chunk currentTimeMs])
    | none => (r.1, r.2)
  else r

/-- `VADSession.interrupt` (session.py lines 115-121): only acts in
SPEAKING or VOICE_END; `_reset_buffer` clears the buffer and counters and
sets the state to IDLE, the pending list is cleared, and the interrupt
callback fires. In IDLE the call does nothing at all. -/
def interrupt (s : State) : State × List Event :=
  if s.state = VADState.SPEAKING ∨ s.state = VADState.VOICE_END then
    ({ s with state := VADState.IDLE
              audioBuffer := []
              totalSamples := 0
              speechStartTimeMs := none
              pendingSegments := [] },
      [Event.vadInterrupt])
  else (s, [])

end Session

namespace Sliding

/-- The mutable fields of `SlidingAudioBuffer` (audio_buffer.py): the
deque contents (most recent `maxSamples` samples), its `maxlen`, and the
global pushed-sample counter. -/
structure Buffer where
  maxSamples : Nat
  buffer : List Int
  totalPushed : Nat
  deriving DecidableEq, Repr

/-- deque `extend` semantics under a `maxlen`: keep only the most recent
`maxlen` elements of the concatenation. -/
def dequeExtend (maxlen : Nat) (buf chunk : List Int) : List Int :=
  let all := buf ++ chunk
  all.drop (all.length - maxlen)

/-- The default-constructed `SlidingAudioBuffer(16000, 5.0)`:
`max_samples = int(16000 * 5.0) = 80000`. -/
def initBuffer : Buffer :=
  { maxSamples := 80000, buffer := [], totalPushed := 0 }

/-- `SlidingAudioBuffer.push` (audio_buffer.py lines 14-18): raises unless
the chunk dtype is float32 — before touching any field — otherwise extends
the bounded deque and bumps the global counter. -/
def push (chunk : NDArray) (b : Buffer) : Buffer × Bool :=
  if chunk.dtype ≠ DType.float32 then (b, true)
  else
    ({ b with buffer := dequeExtend b.maxSamples b.buffer chunk.data
              totalPushed := b.totalPushed + chunk.data.length }, false)

/-- `SlidingAudioBuffer.get_all`: the current deque contents. -/
def get_all (b : Buffer) : List Int := b.buffer

end Sliding

namespace SM

/-- Events fired through the `EventHandler` by `StateMachine`
(state_machine.py): a callback invocation is modelled as an emitted
event. -/
inductive Event where
  | voiceStart
  | voiceEnd
  | vadInterrupt
  deriving DecidableEq, Repr

/-- The mutable fields of `StateMachine` (state_machine.py lines 12-32). -/
structure State where
  state : VADState
  currentSpeechStartMs : Option Int
  lastActiveTimeMs : Option Int
  lastVadEndTimeMs : Option Int
  pendingStartTimeMs : Option Int
  pendingEndTimeMs : Option Int
  deriving DecidableEq, Repr

/-- Timeout configuration of state_machine.py line 22. -/
def silence_timeout_ms : Int := 1000

/-- Minimum valid speech length, state_machine.py line 25. -/
def min_speech_duration_ms : Int := 200

/-- End-debounce confirmation delay, state_machine.py line 26. -/
def end_debounce_ms : Int := 600

/-- Start-debounce confirmation delay, state_machine.py line 27. -/
def start_debounce_ms : Int := 200

/-- Continuation window after a VAD end, state_machine.py line 28. -/
def continuation_window_ms : Int := 800

/-- The freshly constructed `StateMachine`. -/
def initState : State :=
  { state := VADState.IDLE
    currentSpeechStartMs := none
    lastActiveTimeMs := none
    lastVadEndTimeMs := none
    pendingStartTimeMs := none
    pendingEndTimeMs := none }

/-- `StateMachine.add_audio_chunk`: the dtype check raises before any
field is touched; otherwise, while SPEAKING, the last-active timestamp is
refreshed. No callback fires here. -/
def add_audio_chunk (now : Int) (chunk : NDArray) (s : State) : State × Bool :=
  if chunk.dtype ≠ DType.float32 ∧ chunk.dtype ≠ DType.int16 then
    (s, true)
  else if s.state = VADState.SPEAKING then
    ({ s with lastActiveTimeMs := some now }, false)
  else (s, false)

/-- `StateMachine._really_handle_voice_end` (state_machine.py lines
142-159): only acts while SPEAKING; fires `on_voice_end` only when a
speech start is recorded and the elapsed duration reaches
`min_speech_duration_ms`; in every SPEAKING case it then resets the state
to IDLE and clears the speech-start, last-active and last-vad-end
timestamps. -/
def reallyHandleVoiceEnd (now : Int) (s : State) : State × List Event :=
  if s.state ≠ VADState.SPEAKING then (s, [])
  else
    let events :=
      match s.currentSpeechStartMs with
      | some startMs =>
        if now - startMs < min_speech_duration_ms then [] else [Event.voiceEnd]
      | none => []
    ({ s with state := VADState.IDLE
              currentSpeechStartMs := none
              lastActiveTimeMs := none
              lastVadEndTimeMs := none }, events)

/-- `StateMachine._schedule_voice_end` (state_machine.py lines 135-140):
while SPEAKING, unconditionally overwrite the pending-end timestamp with
the current time. -/
def scheduleVoiceEnd (now : Int) (s : State) : State :=
  if s.state ≠ VADState.SPEAKING then s
  else { s with pendingEndTimeMs := some now }

/-- `StateMachine.check_silence_timeout` (state_machine.py lines 43-64),
the periodic tick: step 1 confirms a ripe pending end (clearing the slot
before running the real end handler), step 2 confirms a ripe pending
start (entering SPEAKING and firing `on_voice_start`), step 3 re-arms the
pending end through `_schedule_voice_end` whenever the machine is
SPEAKING and the last activity is older than `silence_timeout_ms`. -/
def check_silence_timeout (now : Int) (s : State) : State × List Event :=
  let r1 :=
    match s.pendingEndTimeMs with
    | some pendingEnd =>
      if now - pendingEnd ≥ end_debounce_ms then
        reallyHandleVoiceEnd now { s with pendingEndTimeMs := none }
      else (s, [])
    | none => (s, [])
  let r2 :=
    match r1.1.pendingStartTimeMs with
    | some pendingStart =>
      if now - pendingStart ≥ start_debounce_ms then
        ({ r1.1 with pendingStartTimeMs := none
                     state := VADState.SPEAKING
                     currentSpeechStartMs := some now
                     lastActiveTimeMs := some now },
          r1.2 ++ [Event.voiceStart])
      else r1
    | none => r1
  let s3 :=
    if r2.1.state = VADState.SPEAKING then
      match r2.1.lastActiveTimeMs with
      | some lastActive =>
        if now - lastActive > silence_timeout_ms then scheduleVoiceEnd now r2.1
        else r2.1
      | none => r2.1
    else r2.1
  (s3, r2.2)

/-- The `has_start` flag of `StateMachine.update_vad_result`: some batch
item is a well-formed open boundary `[start, -1]` with `start ≥ 100`. -/
def segIsStart (seg : List Int) : Bool :=
  match seg with
  | [start, stop] => start ≠ -1 && stop = -1 && start ≥ 100
  | _ => false

/-- The `has_end` flag of `StateMachine.update_vad_result`: some batch
item reaches the `elif end != -1` branch. -/
def segIsEnd (seg : List Int) : Bool :=
  match seg with
  | [start, stop] => !(start ≠ -1 && stop = -1) && stop ≠ -1
  | _ => false

/-- `StateMachine.update_vad_result` (state_machine.py lines 66-133): scan
the batch for start and end evidence, record the last VAD end time, then
run the start handling (ignore while SPEAKING or while a start is already
pending; enter SPEAKING directly inside the continuation window; otherwise
arm the start debounce) and, for end-only batches, either arm the end
debounce while SPEAKING or resolve a pending start (discarding a too-short
candidate, or confirming it retroactively and then arming the end
debounce). -/
def update_vad_result (now : Int) (vadSegments : List (List Int)) (s : State) :
    State × List Event :=
  let hasStart := vadSegments.any segIsStart
  let hasEnd := vadSegments.any segIsEnd
  let s1 := if hasEnd then { s with lastVadEndTimeMs := some now } else s
  if hasStart then
    if s1.state = VADState.SPEAKING then (s1, [])
    else if s1.pendingStartTimeMs.isSome then (s1, [])
    else
      match s1.lastVadEndTimeMs with
      | some lastVadEnd =>
        if now - lastVadEnd < continuation_window_ms then
          ({ s1 with state := VADState.SPEAKING
                     lastActiveTimeMs := some now }, [])
        else ({ s1 with pendingStartTimeMs := some now }, [])
      | none => ({ s1 with pendingStartTimeMs := some now }, [])
  else if hasEnd then
    if s1.state = VADState.SPEAKING then (scheduleVoiceEnd now s1, [])
    else
      match s1.pendingStartTimeMs with
      | some pendingStart =>
        let duration := now - pendingStart
        if duration < min_speech_duration_ms then
          ({ s1 with pendingStartTimeMs := none }, [])
        else
          let s2 := { s1 with pendingStartTimeMs := none
                              state := VADState.SPEAKING
                              currentSpeechStartMs := some (now - duration)
                              lastActiveTimeMs := some now }
          (scheduleVoiceEnd now s2, [Event.voiceStart])
      | none => (s1, [])
  else (s1, [])

/-- `StateMachine.interrupt` (state_machine.py lines 161-169): always
clear both debounce slots and the last VAD end time; only while SPEAKING
reset to IDLE, clear speech-start and last-active, and fire the interrupt
callback. -/
def interrupt (s : State) : State × List Event :=
  let s1 := { s with pendingStartTimeMs := none
                     pendingEndTimeMs := none
                     lastVadEndTimeMs := none }
  if s1.state = VADState.SPEAKING then
    ({ s1 with state := VADState.IDLE
               currentSpeechStartMs := none
               lastActiveTimeMs := none }, [Event.vadInterrupt])
  else (s1, [])

end SM

namespace SM

/-- A sequence of `check_silence_timeout` calls at the given times, with
no boundary batches in between; events accumulate in call order. -/
def runTicks (ticks : List Int) (s : State) : State × List Event :=
  ticks.foldl
    (fun (acc : State × List Event) t =>
      let r := check_silence_timeout t acc.1
      (r.1, acc.2 ++ r.2))
    (s, [])

end SM

/-- The SPEAKING machine used for the silence-timeout trace: speech was
confirmed at time 0, the last activity was at time 0, both debounce slots
are clear. After `k` fast ticks the only change is the pending-end slot,
re-armed at the time of the k-th tick. -/
def skState (k : Nat) : SM.State :=
  { state := VADState.SPEAKING
    currentSpeechStartMs := some 0
    lastActiveTimeMs := some 0
    lastVadEndTimeMs := none
    pendingStartTimeMs := none
    pendingEndTimeMs := if k = 0 then none else some (1000 + 100 * (k : Int)) }

/-- Periodic tick times 1100, 1200, 1300, ...: the silence timeout of
1000 ms has elapsed at every tick, and consecutive ticks are 100 ms
apart — closer than the 600 ms end debounce. -/
def fastTicks (n : Nat) : List Int :=
  (List.range n).map (fun k : Nat => (1100 : Int) + 100 * (k : Int))

theorem tick_rearm (now la : Int) (s : SM.State)
    (h1 : s.state = VADState.SPEAKING)
    (h2 : s.pendingStartTimeMs = none)
    (h3 : s.lastActiveTimeMs = some la)
    (h4 : now - la > SM.silence_timeout_ms)
    (h5 : s.pendingEndTimeMs = none ∨
      ∃ pe, s.pendingEndTimeMs = some pe ∧ now - pe < SM.end_debounce_ms) :
    SM.check_silence_timeout now s = ({ s with pendingEndTimeMs := some now }, []) := by
  unfold SM.check_silence_timeout SM.scheduleVoiceEnd
  rcases h5 with h5 | ⟨pe, h5, h6⟩
  · simp [h1, h2, h3, h5, h4]
  · simp [h1, h2, h3, h5, h4, if_neg (by omega : ¬ now - pe ≥ SM.end_debounce_ms)]

theorem skState_step (k : Nat) :
    SM.check_silence_timeout (1100 + 100 * (k : Int)) (skState k) =
      (skState (k + 1), []) := by
  have h4 : (1100 + 100 * (k : Int)) - 0 > SM.silence_timeout_ms := by
    unfold SM.silence_timeout_ms
    have : (0 : Int) ≤ (k : Int) := Int.natCast_nonneg k
    omega
  have h5 : (skState k).pendingEndTimeMs = none ∨
      ∃ pe, (skState k).pendingEndTimeMs = some pe ∧
        (1100 + 100 * (k : Int)) - pe < SM.end_debounce_ms := by
    rcases k with _ | j
    · exact Or.inl rfl
    · refine Or.inr ⟨1000 + 100 * ((j + 1 : Nat) : Int), by simp [skState], ?_⟩
      unfold SM.end_debounce_ms
      omega
  rw [tick_rearm (1100 + 100 * (k : Int)) 0 (skState k) rfl rfl rfl h4 h5]
  refine Prod.ext ?_ rfl
  simp only [skState, Nat.succ_ne_zero, if_false, Nat.add_eq_zero, and_false]
  refine congrArg _ ?_
  congr 1
  push_cast
  ring

theorem runTicks_fast (n : Nat) :
    SM.runTicks (fastTicks n) (skState 0) = (skState n, []) := by
  induction n with
  | zero => rfl
  | succ m ih =>
    have hsched : fastTicks (m + 1) = fastTicks m ++ [1100 + 100 * (m : Int)] := by
      unfold fastTicks
      rw [List.range_succ, List.map_append]
      rfl
    rw [hsched]
    unfold SM.runTicks at ih ⊢
    rw [List.foldl_append, ih]
    simp only [List.foldl_cons, List.foldl_nil, skState_step m]
    simp

/-- C1 (refuted by the code): a machine in SPEAKING whose silence timeout
has elapsed, given continued periodic ticks every 100 ms, never fires
`on_voice_end` and never leaves SPEAKING — for every number of ticks the
emitted event list stays empty, because step 3 of every tick overwrites
the pending-end slot before step 1 of a later tick can confirm it; the
forced end fires only when a gap of at least `end_debounce_ms` separates
two ticks (third conjunct: a single tick 600 ms after the arming tick
does fire the single `voice_end`). -/
theorem C1_fast_periodic_ticks_starve_voice_end (n : Nat) :
    (SM.runTicks (fastTicks n) (skState 0)).2 = [] ∧
    (SM.runTicks (fastTicks n) (skState 0)).1.state = VADState.SPEAKING ∧
    (SM.check_silence_timeout 1700 (skState 1)).2 = [SM.Event.voiceEnd] := by
  rw [runTicks_fast n]
  exact ⟨rfl, rfl, by decide⟩

/-- C10: whenever `_really_handle_voice_end` runs while the machine is
SPEAKING, it resets the state to IDLE and clears the speech-start,
last-active and last-vad-end timestamps, and when the recorded segment is
shorter than `min_speech_duration_ms` it emits no event at all. -/
theorem C10_short_segment_resets_silently (now : Int) (s : SM.State)
    (h : s.state = VADState.SPEAKING) :
    (SM.reallyHandleVoiceEnd now s).1.state = VADState.IDLE ∧
    (SM.reallyHandleVoiceEnd now s).1.currentSpeechStartMs = none ∧
    (SM.reallyHandleVoiceEnd now s).1.lastActiveTimeMs = none ∧
    (SM.reallyHandleVoiceEnd now s).1.lastVadEndTimeMs = none ∧
    (∀ cs, s.currentSpeechStartMs = some cs →
      now - cs < SM.min_speech_duration_ms →
      (SM.reallyHandleVoiceEnd now s).2 = []) := by
  unfold SM.reallyHandleVoiceEnd
  rw [if_neg (by simp [h])]
  refine ⟨rfl, rfl, rfl, rfl, ?_⟩
  intro cs hcs hshort
  simp [hcs, hshort]

/-- Witness for C10: a segment confirmed at 1000 and force-ended at 1100
(100 ms < 200 ms) resets to IDLE with all three timestamps cleared and no
event emitted. -/
theorem C10_short_segment_resets_silently_witness :
    ((SM.reallyHandleVoiceEnd 1100 { skState 0 with
        currentSpeechStartMs := some 1000 }).1.state = VADState.IDLE ∧
      (SM.reallyHandleVoiceEnd 1100 { skState 0 with
        currentSpeechStartMs := some 1000 }).2 = []) := by
  have h := C10_short_segment_resets_silently 1100
    { skState 0 with currentSpeechStartMs := some 1000 } rfl
  exact ⟨h.1, h.2.2.2.2 1000 rfl (by decide)⟩

namespace Session

/-- A sequence of `add_audio_chunk` calls with no intervening clear or
drain (keeping only the resulting state; the per-call error flags are
covered separately). -/
def pushAll (chunks : List NDArray) (s : State) : State :=
  chunks.foldl (fun st c => (add_audio_chunk c st).1) s

theorem pushAll_fields (chunks : List NDArray) (s : State)
    (h : ∀ c ∈ chunks, c.dtype = DType.float32 ∨ c.dtype = DType.int16) :
    (pushAll chunks s).audioBuffer = s.audioBuffer ++ chunks ∧
    (pushAll chunks s).totalSamples =
      s.totalSamples + (chunks.map (fun c => c.data.length)).sum := by
  induction chunks generalizing s with
  | nil => simp [pushAll]
  | cons c rest ih =>
    have hc := h c (by simp)
    have hrest : ∀ d ∈ rest, d.dtype = DType.float32 ∨ d.dtype = DType.int16 :=
      fun d hd => h d (by simp [hd])
    have hstep : (add_audio_chunk c s).1 =
        { s with audioBuffer := s.audioBuffer ++ [c]
                 totalSamples := s.totalSamples + c.data.length } := by
      unfold add_audio_chunk
      rcases hc with hc | hc <;> simp [hc]
    have := ih { s with audioBuffer := s.audioBuffer ++ [c]
                        totalSamples := s.totalSamples + c.data.length } hrest
    constructor
    · calc (pushAll (c :: rest) s).audioBuffer
          = (pushAll rest ((add_audio_chunk c s).1)).audioBuffer := rfl
        _ = s.audioBuffer ++ c :: rest := by
            rw [hstep, this.1]
            simp
    · calc (pushAll (c :: rest) s).totalSamples
          = (pushAll rest ((add_audio_chunk c s).1)).totalSamples := rfl
        _ = s.totalSamples + ((c :: rest).map (fun c => c.data.length)).sum := by
            rw [hstep, this.2]
            simp
            omega

end Session

/-- C2: for every sequence of pushes into the session accumulation buffer
with no intervening clear or drain, starting from a cleared buffer, the
snapshot taken by segment finalization is the concatenation of all pushed
chunks in order — the buffer holds exactly the pushed chunks, the sample
counter is the total pushed length, and no bound on the number or size of
chunks exists. -/
theorem C2_drain_returns_all_pushed_samples
    (chunks : List NDArray) (s : Session.State)
    (hbuf : s.audioBuffer = [])
    (hdtype : ∀ c ∈ chunks, c.dtype = DType.float32 ∨ c.dtype = DType.int16) :
    (Session.pushAll chunks s).audioBuffer = chunks ∧
    Session.drainAudio (Session.pushAll chunks s) =
      (chunks.map NDArray.data).flatten ∧
    (Session.pushAll chunks s).totalSamples =
      s.totalSamples + (chunks.map (fun c => c.data.length)).sum := by
  have h := Session.pushAll_fields chunks s hdtype
  have hb : (Session.pushAll chunks s).audioBuffer = chunks := by
    rw [h.1, hbuf]
    simp
  exact ⟨hb, by unfold Session.drainAudio; rw [hb], h.2⟩

/-- A one-sample float32 chunk. -/
def chunkA : NDArray := ⟨DType.float32, [1]⟩

/-- A second, distinct one-sample float32 chunk. -/
def chunkB : NDArray := ⟨DType.float32, [2]⟩

/-- Witness for C2: pushing the two concrete chunks into a fresh session
accumulates both, and the finalization snapshot is their samples in
order. -/
theorem C2_drain_returns_all_pushed_samples_witness :
    (Session.pushAll [chunkA, chunkB] Session.initState).audioBuffer =
      [chunkA, chunkB] ∧
    Session.drainAudio (Session.pushAll [chunkA, chunkB] Session.initState) =
      [1, 2] := by
  have h := C2_drain_returns_all_pushed_samples [chunkA, chunkB]
    Session.initState rfl (by decide)
  exact ⟨h.1, by rw [h.2.1]; decide⟩

/-- The idle session holding one undrained chunk (reachable: a chunk may
be added in any state). -/
def sessionIdleWithChunk : Session.State :=
  { Session.initState with audioBuffer := [chunkA], totalSamples := 1 }

/-- C6 counterexample: an interrupt requested while the session is IDLE
with a non-empty buffer is a complete no-op — no `on_interrupt` fires and
the buffered audio is not discarded — refuting the claim that an external
interrupt in every state transitions to Idle, fires `on_interrupt` and
discards the buffer. -/
theorem C6_counterexample :
    Session.interrupt sessionIdleWithChunk = (sessionIdleWithChunk, []) ∧
    sessionIdleWithChunk.audioBuffer ≠ [] := by
  exact ⟨by decide, by decide⟩

/-- C6 as amended: an interrupt fires `on_interrupt` (and only it — in
particular no `voice_end`), clears the buffer and returns to IDLE exactly
when the machine is SPEAKING (for `VADSession` also VOICE_END); while
IDLE, `VADSession.interrupt` does nothing at all and
`StateMachine.interrupt` fires nothing (it only clears the pending
slots). -/
theorem C6_interrupt_only_acts_when_speaking :
    (∀ s : Session.State, s.state = VADState.SPEAKING →
      (Session.interrupt s).2 = [Session.Event.vadInterrupt] ∧
      (Session.interrupt s).1.audioBuffer = [] ∧
      (Session.interrupt s).1.state = VADState.IDLE) ∧
    (∀ s : Session.State, s.state = VADState.IDLE →
      Session.interrupt s = (s, [])) ∧
    (∀ s : SM.State, s.state = VADState.SPEAKING →
      (SM.interrupt s).2 = [SM.Event.vadInterrupt] ∧
      (SM.interrupt s).1.state = VADState.IDLE) ∧
    (∀ s : SM.State, s.state = VADState.IDLE →
      (SM.interrupt s).2 = [] ∧ (SM.interrupt s).1.state = VADState.IDLE) := by
  refine ⟨?_, ?_, ?_, ?_⟩
  · intro s h
    unfold Session.interrupt
    rw [if_pos (Or.inl h)]
    exact ⟨rfl, rfl, rfl⟩
  · intro s h
    unfold Session.interrupt
    rw [if_neg (by simp [h])]
  · intro s h
    unfold SM.interrupt
    rw [if_pos (by simpa using h)]
    exact ⟨rfl, rfl⟩
  · intro s h
    unfold SM.interrupt
    rw [if_neg (by simp [h])]
    exact ⟨rfl, by simpa using h⟩

/-- The speaking session holding one undrained chunk. -/
def sessionSpeakingWithChunk : Session.State :=
  { Session.initState with state := VADState.SPEAKING
                           audioBuffer := [chunkA]
                           totalSamples := 1 }

/-- Witness for C6: interrupting the concrete SPEAKING session fires
exactly the interrupt event and clears the buffer. -/
theorem C6_interrupt_only_acts_when_speaking_witness :
    (Session.interrupt sessionSpeakingWithChunk).2 =
      [Session.Event.vadInterrupt] ∧
    (Session.interrupt sessionSpeakingWithChunk).1.audioBuffer = [] := by
  have h := C6_interrupt_only_acts_when_speaking.1 sessionSpeakingWithChunk rfl
  exact ⟨h.1, h.2.1⟩

/-- A SPEAKING machine whose end-debounce slot was armed at time 1000. -/
def smSpeakingArmedEnd : SM.State :=
  { state := VADState.SPEAKING
    currentSpeechStartMs := some 0
    lastActiveTimeMs := some 900
    lastVadEndTimeMs := none
    pendingStartTimeMs := none
    pendingEndTimeMs := some 1000 }

/-- A machine with the start-debounce slot armed at time 42. -/
def smArmedStart : SM.State :=
  { state := VADState.IDLE
    currentSpeechStartMs := none
    lastActiveTimeMs := none
    lastVadEndTimeMs := none
    pendingStartTimeMs := some 42
    pendingEndTimeMs := none }

/-- C7 counterexample: with the end slot armed at 1000, a later end
boundary at time 1500 overwrites the armed timestamp to 1500 — the end
debounce countdown restarts, refuting the first-observation-wins no-op
contract for the end slot. -/
theorem C7_counterexample :
    smSpeakingArmedEnd.pendingEndTimeMs = some 1000 ∧
    (SM.update_vad_result 1500 [[-1, 2000]] smSpeakingArmedEnd).1.pendingEndTimeMs =
      some 1500 := by
  exact ⟨by decide, by decide⟩

/-- C7 as amended: the start slot is a no-op while armed (a batch with
start evidence leaves an armed pending-start timestamp unchanged), but the
end slot is not — `_schedule_voice_end` unconditionally overwrites the
pending-end timestamp with the current time while SPEAKING. -/
theorem C7_start_arm_noop_end_arm_overwrites :
    (∀ now (vadSegments : List (List Int)) (s : SM.State) t,
      s.pendingStartTimeMs = some t →
      vadSegments.any SM.segIsStart = true →
      (SM.update_vad_result now vadSegments s).1.pendingStartTimeMs = some t) ∧
    (∀ now (s : SM.State), s.state = VADState.SPEAKING →
      (SM.scheduleVoiceEnd now s).pendingEndTimeMs = some now) := by
  constructor
  · intro now vadSegments s t ht hstart
    unfold SM.update_vad_result
    simp only [hstart, if_true]
    repeat' split
    all_goals simp_all
  · intro now s h
    unfold SM.scheduleVoiceEnd
    rw [if_neg (by simp [h])]

/-- Witness for C7: a batch with fresh start evidence at time 999 leaves
the start slot armed at 42 untouched. -/
theorem C7_start_arm_noop_end_arm_overwrites_witness :
    (SM.update_vad_result 999 [[150, -1]] smArmedStart).1.pendingStartTimeMs =
      some 42 :=
  C7_start_arm_noop_end_arm_overwrites.1 999 [[150, -1]] smArmedStart 42
    rfl (by decide)

/-- C9 counterexample: `SlidingAudioBuffer.push` rejects a 16-bit integer
chunk even though that is one of the two canonical encodings (which the
session-level push accepts, second conjunct) — refuting the claim that a
push into the session audio buffer fails only for chunks that are neither
float32 nor int16. -/
theorem C9_counterexample :
    (Sliding.push ⟨DType.int16, [0]⟩ Sliding.initBuffer).2 = true ∧
    (Session.add_audio_chunk ⟨DType.int16, [0]⟩ Session.initState).2 = false := by
  exact ⟨by decide, by decide⟩

/-- C9 as amended: `VADSession.add_audio_chunk` fails exactly when the
chunk is neither float32 nor int16 and a failing push leaves the session
unchanged; `SlidingAudioBuffer.push` however accepts only float32 —
rejecting int16 as well — and likewise leaves the buffer unchanged on
failure. -/
theorem C9_push_error_conditions :
    (∀ (chunk : NDArray) (s : Session.State),
      ((Session.add_audio_chunk chunk s).2 = true ↔
        (chunk.dtype ≠ DType.float32 ∧ chunk.dtype ≠ DType.int16)) ∧
      ((Session.add_audio_chunk chunk s).2 = true →
        (Session.add_audio_chunk chunk s).1 = s)) ∧
    (∀ (chunk : NDArray) (b : Sliding.Buffer),
      ((Sliding.push chunk b).2 = true ↔ chunk.dtype ≠ DType.float32) ∧
      ((Sliding.push chunk b).2 = true → (Sliding.push chunk b).1 = b)) := by
  constructor
  · intro chunk s
    unfold Session.add_audio_chunk
    constructor
    · split <;> simp_all
    · split <;> simp_all
  · intro chunk b
    unfold Sliding.push
    constructor
    · split <;> simp_all
    · split <;> simp_all

/-- Witness for C9: a float64 chunk is rejected by the session push and
the failed push leaves the fresh session unchanged. -/
theorem C9_push_error_conditions_witness :
    (Session.add_audio_chunk ⟨DType.float64, [3]⟩ Session.initState).2 = true ∧
    (Session.add_audio_chunk ⟨DType.float64, [3]⟩ Session.initState).1 =
      Session.initState := by
  have h := C9_push_error_conditions.1 ⟨DType.float64, [3]⟩ Session.initState
  have herr : (Session.add_audio_chunk ⟨DType.float64, [3]⟩ Session.initState).2 = true :=
    h.1.2 (by decide)
  exact ⟨herr, h.2 herr⟩

/-- C8 counterexample: a close-only boundary `[-1, 500]` arriving with no
pending-open entry is discarded by `VADSession.update_vad_result` — no
`(0, 500)` segment is finalized, no event fires, and the state is left
untouched — refuting the claim that an absent pending-open entry makes
the session emit `(0, e)`. -/
theorem C8_counterexample :
    Session.initState.pendingSegments = [] ∧
    Session.update_vad_result [[-1, 500]] Session.initState =
      (Session.initState, []) := by
  exact ⟨by decide, by decide⟩

/-- C8 as amended: a close-only boundary `(-1, e)` pops the most recent
pending-open entry when one exists and finalizes `(popped_start, e)`
(provided `100 ≤ popped_start < e` and the session is IDLE or SPEAKING);
when no pending-open entry exists, the session discards the boundary
entirely. Emitting `(0, e)` for an orphan close happens only in the batch
resolver `_resolve_vad_segments`, which never consults a pending stack. -/
theorem C8_close_boundary_resolution :
    (∀ t (s : Session.State) e,
      Session.popMostRecentOpen s.pendingSegments = none →
      Session.step t s [-1, e] = (s, [])) ∧
    (∀ t (s : Session.State) e ps rest,
      e ≠ -1 →
      Session.popMostRecentOpen s.pendingSegments = some (ps, rest) →
      100 ≤ ps → ps < e →
      s.state = VADState.SPEAKING ∨ s.state = VADState.IDLE →
      Session.step t s [-1, e] =
        ({ s with pendingSegments := rest
                  state := VADState.IDLE
                  audioBuffer := []
                  totalSamples := 0
                  speechStartTimeMs := none },
          [Session.Event.voiceEnd (Session.drainAudio s) ps e])) ∧
    (∀ (total e : Int), e ≠ -1 →
      StreamingVAD.resolveOne total [-1, e] =
        if 0 < e then some (0, e) else none) := by
  refine ⟨?_, ?_, ?_⟩
  · intro t s e hpop
    unfold Session.step
    simp only [neg_neg]
    rw [if_neg (by simp)]
    by_cases he : e = -1
    · rw [if_neg (by simp [he])]
    · rw [if_pos (by simpa using he)]
      simp [hpop]
  · intro t s e ps rest he hpop h100 hlt hstate
    unfold Session.step
    dsimp only
    rw [if_neg (by simp : ¬((-1 : Int) ≠ -1 ∧ e = -1))]
    rw [if_pos he]
    rw [if_pos (rfl : (-1 : Int) = -1)]
    rw [hpop]
    dsimp only
    rw [if_neg (by omega : ¬(ps ≥ e ∨ ps < 100))]
    rw [if_pos hstate]
    simp [Session.drainAudio]
  · intro total e he
    unfold StreamingVAD.resolveOne
    dsimp only
    rw [if_neg (by simp : ¬((-1 : Int) ≠ -1 ∧ e ≠ -1))]
    rw [if_neg (by simp : ¬((-1 : Int) ≠ -1 ∧ e = -1))]
    rw [if_pos (⟨rfl, he⟩ : (-1 : Int) = -1 ∧ e ≠ -1)]

/-- A fresh session with one retained pending-open entry `[150, -1]`. -/
def sessionWithPendingOpen : Session.State :=
  { Session.initState with pendingSegments := [[150, -1]] }

/-- Witness for C8: a close `[-1, 500]` against the retained open
`[150, -1]` pops it and finalizes `(150, 500)`. -/
theorem C8_close_boundary_resolution_witness :
    Session.step 0 sessionWithPendingOpen [-1, 500] =
      ({ sessionWithPendingOpen with
          pendingSegments := []
          state := VADState.IDLE
          audioBuffer := []
          totalSamples := 0
          speechStartTimeMs := none },
        [Session.Event.voiceEnd (Session.drainAudio sessionWithPendingOpen) 150 500]) :=
  C8_close_boundary_resolution.2.1 0 sessionWithPendingOpen 500 150 []
    (by decide) (by decide) (by decide) (by decide) (Or.inr rfl)

/-- C3 counterexample: the closed segment `[150, 200]` — a 50 ms
candidate, far below the 200 ms `min_speech_duration_ms` — makes the
session fire `on_voice_end` immediately; `VADSession` applies no
minimum-duration check, refuting the claim that a segment shorter than
`min_speech_duration_ms` never produces a `voice_end`. -/
theorem C3_counterexample :
    (Session.update_vad_result [[150, 200]] Session.initState).2 =
      [Session.Event.voiceEnd [] 150 200] ∧
    (200 : Int) - 150 < SM.min_speech_duration_ms := by
  exact ⟨by decide, by decide⟩

theorem reallyHandleVoiceEnd_requires_min (now : Int) (s : SM.State)
    (h : SM.Event.voiceEnd ∈ (SM.reallyHandleVoiceEnd now s).2) :
    ∃ cs, s.currentSpeechStartMs = some cs ∧
      now - cs ≥ SM.min_speech_duration_ms := by
  unfold SM.reallyHandleVoiceEnd at h
  split at h
  · simp at h
  · dsimp only at h
    split at h
    · split at h
      · simp at h
      · rename_i st heq hge
        exact ⟨st, heq, by omega⟩
    · simp at h

theorem check_silence_voiceEnd_requires_min (now : Int) (s : SM.State)
    (h : SM.Event.voiceEnd ∈ (SM.check_silence_timeout now s).2) :
    ∃ cs, s.currentSpeechStartMs = some cs ∧
      now - cs ≥ SM.min_speech_duration_ms := by
  unfold SM.check_silence_timeout at h
  dsimp only at h
  have hr := reallyHandleVoiceEnd_requires_min now
    { s with pendingEndTimeMs := none }
  repeat' split at h
  all_goals simp_all

theorem update_vad_result_no_voiceEnd (now : Int)
    (vadSegments : List (List Int)) (s : SM.State) :
    SM.Event.voiceEnd ∉ (SM.update_vad_result now vadSegments s).2 := by
  intro h
  unfold SM.update_vad_result SM.scheduleVoiceEnd at h
  dsimp only at h
  repeat' split at h
  all_goals simp_all

theorem session_fires_voiceEnd_for_any_closed_segment
    (t startMs endMs : Int) (s : Session.State)
    (h1 : 100 ≤ startMs) (h2 : startMs < endMs)
    (h3 : s.state = VADState.SPEAKING ∨ s.state = VADState.IDLE) :
    Session.step t s [startMs, endMs] =
      ({ s with state := VADState.IDLE
                audioBuffer := []
                totalSamples := 0
                speechStartTimeMs := none },
        [Session.Event.voiceEnd (Session.drainAudio s) startMs endMs]) := by
  unfold Session.step
  dsimp only
  rw [if_neg (by omega : ¬(startMs ≠ -1 ∧ endMs = -1))]
  rw [if_pos (by omega : endMs ≠ -1)]
  rw [if_neg (by omega : ¬startMs = -1)]
  dsimp only
  rw [if_neg (by omega : ¬(startMs ≥ endMs ∨ startMs < 100))]
  rw [if_pos h3]

/-- C3 as amended: the debounced `StateMachine` honours the minimum — its
tick path fires `voice_end` only when a speech start is recorded at least
`min_speech_duration_ms` before the call, and its boundary path never
fires `voice_end` at all — but `VADSession` applies no minimum-duration
check: every closed segment passing the `start ≥ 100` and `start < end`
filters, processed while IDLE or SPEAKING, fires `on_voice_end`, however
short. -/
theorem C3_min_duration_only_in_state_machine :
    (∀ now (s : SM.State),
      SM.Event.voiceEnd ∈ (SM.check_silence_timeout now s).2 →
      ∃ cs, s.currentSpeechStartMs = some cs ∧
        now - cs ≥ SM.min_speech_duration_ms) ∧
    (∀ now (vadSegments : List (List Int)) (s : SM.State),
      SM.Event.voiceEnd ∉ (SM.update_vad_result now vadSegments s).2) ∧
    (∀ (t startMs endMs : Int) (s : Session.State),
      100 ≤ startMs → startMs < endMs →
      s.state = VADState.SPEAKING ∨ s.state = VADState.IDLE →
      Session.step t s [startMs, endMs] =
        ({ s with state := VADState.IDLE
                  audioBuffer := []
                  totalSamples := 0
                  speechStartTimeMs := none },
          [Session.Event.voiceEnd (Session.drainAudio s) startMs endMs])) :=
  ⟨check_silence_voiceEnd_requires_min, update_vad_result_no_voiceEnd,
    session_fires_voiceEnd_for_any_closed_segment⟩

/-- Witness for C3: the 1 ms closed segment `[100, 101]` fires
`on_voice_end` in the fresh session. -/
theorem C3_min_duration_only_in_state_machine_witness :
    Session.step 0 Session.initState [100, 101] =
      ({ Session.initState with state := VADState.IDLE
                                audioBuffer := []
                                totalSamples := 0
                                speechStartTimeMs := none },
        [Session.Event.voiceEnd (Session.drainAudio Session.initState) 100 101]) :=
  C3_min_duration_only_in_state_machine.2.2 0 100 101 Session.initState
    (by decide) (by decide) (Or.inr rfl)

/-- Recognizer for the streaming `on_voice_active` event. -/
def isVoiceActive : Session.Event → Bool
  | Session.Event.voiceActive _ _ => true
  | _ => false

theorem step_no_voiceActive (t : Int) (s : Session.State) (seg : List Int) :
    ∀ e ∈ (Session.step t s seg).2, isVoiceActive e = false := by
  intro e he
  unfold Session.step at he
  rcases hp : Session.popMostRecentOpen s.pendingSegments with _ | ⟨ps, rest⟩ <;>
    (try rw [hp] at he) <;>
    (repeat' first
      | split at he
      | dsimp only at he) <;>
    simp_all [isVoiceActive]

theorem runSegments_no_voiceActive (t : Int) (segs : List (List Int))
    (s : Session.State) :
    ∀ e ∈ (Session.runSegments t s segs).2, isVoiceActive e = false := by
  induction segs generalizing s with
  | nil =>
    intro e he
    simp [Session.runSegments] at he
  | cons seg rest ih =>
    intro e he
    unfold Session.runSegments at he
    dsimp only at he
    rcases List.mem_append.1 he with h | h
    · exact step_no_voiceActive t s seg e h
    · exact ih _ e h

theorem runSegments_filter_voiceActive (t : Int) (segs : List (List Int))
    (s : Session.State) :
    (Session.runSegments t s segs).2.filter isVoiceActive = [] :=
  List.filter_eq_nil.2 (fun e he => by
    simp [runSegments_no_voiceActive t segs s e he])

/-- C4 as amended: `on_voice_active` fires at most once per
`update_vad_result` call — the loop over the boundary batch emits no
`voice_active` at all, only the trailing streaming block does — and any
`voice_active` event of a call carries exactly the most recent chunk of
the post-call buffer together with the elapsed duration at entry; audio
chunks do not trigger any callback when they are added. -/
theorem C4_voice_active_once_per_update (s : Session.State)
    (vadSegments : List (List Int)) :
    ((Session.update_vad_result vadSegments s).2.filter isVoiceActive).length ≤ 1 ∧
    (∀ chunk elapsedMs,
      Session.Event.voiceActive chunk elapsedMs ∈
        (Session.update_vad_result vadSegments s).2 →
      (Session.update_vad_result vadSegments s).1.audioBuffer.getLast? =
        some chunk ∧
      elapsedMs = Session.get_total_duration_ms s) := by
  unfold Session.update_vad_result
  dsimp only
  have hfilter := runSegments_filter_voiceActive
    (Session.get_total_duration_ms s) (s.pendingSegments ++ vadSegments)
    { s with pendingSegments := [] }
  have hmem := runSegments_no_voiceActive
    (Session.get_total_duration_ms s) (s.pendingSegments ++ vadSegments)
    { s with pendingSegments := [] }
  split
  · split
    · rename_i chunk heq
      constructor
      · rw [List.filter_append, hfilter]
        simp [isVoiceActive]
      · intro c el hc
        dsimp only at hc
        rcases List.mem_append.1 hc with h | h
        · exact absurd (hmem _ h) (by simp [isVoiceActive])
        · simp only [List.mem_singleton] at h
          cases h
          exact ⟨heq, rfl⟩
    · constructor
      · rw [hfilter]
        simp
      · intro c el hc
        exact absurd (hmem _ hc) (by simp [isVoiceActive])
  · constructor
    · rw [hfilter]
      simp
    · intro c el hc
      exact absurd (hmem _ hc) (by simp [isVoiceActive])

/-- First call of the C4 trace: the open boundary `[150, -1]` confirms a
voice start on the fresh session. -/
def c4Start : Session.State × List Session.Event :=
  Session.update_vad_result [[150, -1]] Session.initState

/-- The C4 trace after two chunks arrive while SPEAKING. -/
def c4AfterChunks : Session.State :=
  (Session.add_audio_chunk chunkB (Session.add_audio_chunk chunkA c4Start.1).1).1

/-- Second call of the C4 trace: an empty boundary batch while SPEAKING. -/
def c4Second : Session.State × List Session.Event :=
  Session.update_vad_result [] c4AfterChunks

/-- C4 counterexample: chunks A and B both arrive while the session is
SPEAKING, yet adding them triggers nothing, and across the whole trace
exactly one `voice_active` fires — carrying only chunk B — so chunk A
never produces a `voice_active` event, refuting the claim that every
inbound chunk received while Speaking immediately triggers exactly one
`on_voice_active` carrying that chunk. -/
theorem C4_counterexample :
    c4Start.2 = [Session.Event.voiceStart] ∧
    c4Start.1.state = VADState.SPEAKING ∧
    c4AfterChunks.state = VADState.SPEAKING ∧
    c4AfterChunks.audioBuffer = [chunkA, chunkB] ∧
    c4Second.2 = [Session.Event.voiceActive chunkB 0] ∧
    chunkA ≠ chunkB := by
  refine ⟨by decide, by decide, by decide, by decide, by decide, by decide⟩

/-- Witness for C4: in the concrete trace, the single `voice_active` of
the second call carries the most recent chunk and the entry-time elapsed
duration. -/
theorem C4_voice_active_once_per_update_witness :
    (Session.update_vad_result [] c4AfterChunks).1.audioBuffer.getLast? =
      some chunkB ∧
    (0 : Int) = Session.get_total_duration_ms c4AfterChunks :=
  (C4_voice_active_once_per_update c4AfterChunks []).2 chunkB 0 (by decide)
